import Mathlib

/-!
Verification of the SiteScan image formatter (SiteScan_Image_Formatter_Source.py).

The numeric core (`to_deg`, `change_to_rational`, `set_gps_location`) is embedded
over exact rationals: the script manipulates decimal GPS values, and every value
in scope is an exact decimal, so `ℚ` models the arithmetic faithfully.  Python's
`int(...)` truncation and `round` (banker's rounding, with or without a digit
count) are modelled explicitly.  The batch driver (`main`) is embedded as a pure
state-passing function over an abstract file-existence oracle, an in-memory
table (CSV parsing is an external collaborator) and the previous content of the
error-report file; image mutation via piexif is modelled by recording, per
tagged file, the GPS dictionary built for it.
-/

/-- Truncation toward zero, the behaviour of Python's `int()` on a number. -/
def pyInt (q : ℚ) : ℤ :=
  if q < 0 then -⌊-q⌋ else ⌊q⌋

/-- Round to the nearest integer, ties to even: Python's `round(x)`. -/
def roundHalfEven (q : ℚ) : ℤ :=
  let f := ⌊q⌋
  let r := q - f
  if r < 1/2 then f
  else if 1/2 < r then f + 1
  else if f % 2 = 0 then f else f + 1

/-- Round to 5 decimal places, ties to even: Python's `round(x, 5)`. -/
def pyRound5 (q : ℚ) : ℚ :=
  (roundHalfEven (q * 100000) : ℚ) / 100000

/-- Embedding of `to_deg(value, loc)`: convert a decimal coordinate into a
degrees / minutes / seconds / reference tuple.  `loc` is the direction pair
`(loc[0], loc[1])`, e.g. `("S", "N")` or `("W", "E")`. -/
def to_deg (value : ℚ) (loc : String × String) : ℤ × ℤ × ℚ × String :=
  let loc_value := if value < 0 then loc.1 else if value > 0 then loc.2 else ""
  let abs_value := |value|
  let deg := pyInt abs_value
  let t1 := (abs_value - deg) * 60
  let mn := pyInt t1
  let sec := pyRound5 ((t1 - mn) * 60)
  (deg, mn, sec, loc_value)

/-- Embedding of `change_to_rational(number)`, i.e. Python's
`Fraction(str(number))`: the exact value of the decimal rendering of `number`,
in lowest terms.  Since the embedding's numbers are exact decimals, this is the
numerator/denominator pair of the rational itself, which `ℚ` stores in lowest
terms exactly as `Fraction` does. -/
def change_to_rational (number : ℚ) : ℤ × ℕ :=
  (number.num, number.den)

/-- Decoding of a DMS tuple back into decimal degrees, following the spec's
words: `deg + min/60 + sec/3600`, with the sign taken from the reference
character. -/
def decodeDMS (t : ℤ × ℤ × ℚ × String) (negativeRef : String) : ℚ :=
  let m := (t.1 : ℚ) + (t.2.1 : ℚ) / 60 + t.2.2.1 / 3600
  if t.2.2.2 = negativeRef then -m else m

/-- The GPS IFD dictionary built by `set_gps_location`: version marker,
altitude reference byte, altitude rational, and latitude / longitude reference
characters with their (deg, min, sec) rational triples.  Field order follows
the piexif tag keys used in the source. -/
structure GpsIfd where
  gpsVersionID : ℕ × ℕ × ℕ × ℕ
  gpsAltitudeRef : ℕ
  gpsAltitude : ℤ × ℕ
  gpsLatitudeRef : String
  gpsLatitude : (ℤ × ℕ) × (ℤ × ℕ) × (ℤ × ℕ)
  gpsLongitudeRef : String
  gpsLongitude : (ℤ × ℕ) × (ℤ × ℕ) × (ℤ × ℕ)
deriving DecidableEq

/-- Embedding of `set_gps_location(file_name, lat, lng, altitude)`: the GPS
IFD dictionary assembled for the file.  Serialisation and in-place insertion
(`piexif.dump` / `piexif.insert`) are the external collaborator; the batch
model records this block per tagged file.  Python's no-digit `round` is
`roundHalfEven`. -/
def set_gps_location (lat lng altitude : ℚ) : GpsIfd :=
  let lat_deg := to_deg lat ("S", "N")
  let lng_deg := to_deg lng ("W", "E")
  let exiv_lat := (change_to_rational (lat_deg.1 : ℚ),
    change_to_rational (lat_deg.2.1 : ℚ), change_to_rational lat_deg.2.2.1)
  let exiv_lng := (change_to_rational (lng_deg.1 : ℚ),
    change_to_rational (lng_deg.2.1 : ℚ), change_to_rational lng_deg.2.2.1)
  { gpsVersionID := (2, 0, 0, 0)
    gpsAltitudeRef := 1
    gpsAltitude := change_to_rational ((roundHalfEven altitude : ℤ) : ℚ)
    gpsLatitudeRef := lat_deg.2.2.2
    gpsLatitude := exiv_lat
    gpsLongitudeRef := lng_deg.2.2.2
    gpsLongitude := exiv_lng }

/-- Errors a malformed table row can raise in the loop body: Python's
IndexError (row has too few columns for a caller-supplied column index) and
ValueError (`float(...)` on a non-numeric cell). -/
inductive RowError where
  | indexError : RowError
  | valueError : RowError
deriving DecidableEq

/-- Accumulate a digit string into a natural number; `none` if any character
is not a decimal digit. -/
def parseDigits (l : List Char) : Option ℕ :=
  l.foldl
    (fun acc c =>
      match acc with
      | none => none
      | some n => if c.isDigit then some (n * 10 + (c.toNat - 48)) else none)
    (some 0)

/-- Model of Python's `float()` builtin on the plain decimal literals the GPS
table contains: optional sign, integer digits, optional fractional digits, at
least one digit overall.  Exponent, infinity and nan forms are outside the rows
in scope; any other string raises ValueError (`none` here). -/
def pyFloat (s : String) : Option ℚ :=
  let withSign : ℚ × List Char :=
    match s.data with
    | '-' :: r => (-1, r)
    | '+' :: r => (1, r)
    | r => (1, r)
  let ip := withSign.2.takeWhile fun c => c ≠ '.'
  let rest := withSign.2.drop ip.length
  match rest with
  | [] =>
    if ip.isEmpty then none
    else (parseDigits ip).map fun n => withSign.1 * n
  | _ :: fp =>
    if ip.isEmpty ∧ fp.isEmpty then none
    else
      match parseDigits ip, parseDigits fp with
      | some n, some m =>
        some (withSign.1 * ((n : ℚ) + (m : ℚ) / (10 : ℚ) ^ fp.length))
      | _, _ => none

/-- The caller-supplied arguments of `main` other than the table itself:
image folder, error-log path, and the four 0-based column indices. -/
structure BatchConfig where
  sourceImageFolder : String
  errorLogCSV : String
  img_Name_Column : ℕ
  Lat_Y_Column : ℕ
  Long_X_Column : ℕ
  Alt_Z_Column : ℕ

/-- Python `row[i]` on a list of cells: the cell, or IndexError. -/
def rowCell (row : List String) (i : ℕ) : Except RowError String :=
  match row[i]? with
  | some s => Except.ok s
  | none => Except.error RowError.indexError

/-- Python `float(row[i])`: indexing then numeric conversion, either of which
can raise. -/
def floatCell (row : List String) (i : ℕ) : Except RowError ℚ :=
  match rowCell row i with
  | Except.error e => Except.error e
  | Except.ok s =>
    match pyFloat s with
    | some q => Except.ok q
    | none => Except.error RowError.valueError

/-- Model of `os.path.join(folder, name)` for a relative file name under a
folder without a trailing separator, the shape used by the script. -/
def pathJoin (a b : String) : String :=
  a ++ "/" ++ b

/-- One iteration of the row loop in `main`, up to but excluding the mutation
of the accumulators: the diagnostic lines printed for the row, and either the
tagging performed (file path with its GPS block), the failed file name, or the
uncaught error.  The float conversions happen only in the branch where the
file exists, after the path diagnostic, in lat / lng / alt order, matching the
source's argument evaluation order. -/
def processRow (fs : String → Bool) (cfg : BatchConfig) (row : List String) :
    List String × Except RowError ((String × GpsIfd) ⊕ String) :=
  match rowCell row cfg.img_Name_Column with
  | Except.error e => ([], Except.error e)
  | Except.ok name =>
    let imgFile := pathJoin cfg.sourceImageFolder name
    if fs imgFile then
      ([imgFile],
        match floatCell row cfg.Lat_Y_Column with
        | Except.error e => Except.error e
        | Except.ok lat =>
          match floatCell row cfg.Long_X_Column with
          | Except.error e => Except.error e
          | Except.ok lng =>
            match floatCell row cfg.Alt_Z_Column with
            | Except.error e => Except.error e
            | Except.ok alt => Except.ok (Sum.inl (imgFile, set_gps_location lat lng alt)))
    else
      (["Skipped " ++ name ++ " as file does not exist in Source Image Folder Location"],
        Except.ok (Sum.inr name))

/-- The mutable state of the loop in `main`: files tagged so far (with the GPS
block each received), the `failedFiles` accumulator, and diagnostics printed. -/
structure LoopState where
  tagged : List (String × GpsIfd)
  failedFiles : List String
  log : List String
deriving DecidableEq

/-- The row loop of `main`: process the data rows in order, extending the
accumulators; an uncaught error stops the loop at the offending row, keeping
the effects of the rows already processed. -/
def runRows (fs : String → Bool) (cfg : BatchConfig) :
    List (List String) → LoopState → LoopState × Option RowError
  | [], st => (st, none)
  | row :: rest, st =>
    match processRow fs cfg row with
    | (msgs, Except.error e) => ({ st with log := st.log ++ msgs }, some e)
    | (msgs, Except.ok (Sum.inl t)) =>
      runRows fs cfg rest
        { tagged := st.tagged ++ [t], failedFiles := st.failedFiles, log := st.log ++ msgs }
    | (msgs, Except.ok (Sum.inr name)) =>
      runRows fs cfg rest
        { tagged := st.tagged, failedFiles := st.failedFiles ++ [name], log := st.log ++ msgs }

/-- Embedding of `write_list_to_file(inList, csvFile)`: the content written to
the file, one entry per line, no header.  The source deletes an existing file
first and opens the path in write mode, so the resulting content never depends
on the previous content of the path. -/
def write_list_to_file (inList : List String) : String :=
  String.join (inList.map fun e => e ++ "\n")

/-- The observable outcome of one run of `main`: tagged files in order, the
final failure list, the diagnostics printed, the final content of the error
log path (`none` if absent), and the uncaught error if the run aborted. -/
structure BatchResult where
  tagged : List (String × GpsIfd)
  failedFiles : List String
  log : List String
  errorLog : Option String
  error : Option RowError
deriving DecidableEq

/-- Embedding of `main(sourceImageFolder, gpscsv, errorLogCSV, ...)` (Lean
reserves the name `main`, so the spec's name `runBatch` is used).  `fs` is
the file-existence oracle (`os.path.exists`), `table` the parsed rows of the
GPS csv, and `errorLog0` the content of the error log path before the run
(`none` if absent).  `next(readCSV, None)` skips exactly one header row and
does not raise on an empty table, which `List.drop 1` models; the error report
is written only when `failedFiles` is non-empty at the end of a completed
pass. -/
def runBatch (fs : String → Bool) (cfg : BatchConfig) (table : List (List String))
    (errorLog0 : Option String) : BatchResult :=
  match runRows fs cfg (table.drop 1) ⟨[], [], []⟩ with
  | (st, some e) => ⟨st.tagged, st.failedFiles, st.log, errorLog0, some e⟩
  | (st, none) =>
    if st.failedFiles.length ≠ 0 then
      ⟨st.tagged, st.failedFiles,
        st.log ++
          ["could not locate " ++ toString st.failedFiles.length ++ " files at path specified",
            "appending names of failed files to CSV to errorLog " ++ cfg.errorLogCSV,
            "see " ++ cfg.errorLogCSV ++ " for list of failed files... locate the files and reprocess"],
        some (write_list_to_file st.failedFiles), none⟩
    else
      ⟨st.tagged, st.failedFiles, st.log, errorLog0, none⟩

/-- Specification-side description of the failure list: the identifiers of the
rows whose constructed file path (image folder joined with the row's
name-column value) does not exist, in table order. -/
def missingFileNames (fs : String → Bool) (cfg : BatchConfig)
    (rows : List (List String)) : List String :=
  rows.filterMap fun row =>
    match row[cfg.img_Name_Column]? with
    | some name => if fs (pathJoin cfg.sourceImageFolder name) then none else some name
    | none => none

/-- Per-row view of the taggings performed by the loop, in table order. -/
def taggedOf (fs : String → Bool) (cfg : BatchConfig)
    (rows : List (List String)) : List (String × GpsIfd) :=
  rows.filterMap fun row =>
    match (processRow fs cfg row).2 with
    | Except.ok (Sum.inl t) => some t
    | _ => none

/-- Per-row view of the failure-list entries recorded by the loop. -/
def failedOf (fs : String → Bool) (cfg : BatchConfig)
    (rows : List (List String)) : List String :=
  rows.filterMap fun row =>
    match (processRow fs cfg row).2 with
    | Except.ok (Sum.inr n) => some n
    | _ => none

/-- Per-row view of the diagnostics printed by the loop. -/
def logOf (fs : String → Bool) (cfg : BatchConfig)
    (rows : List (List String)) : List String :=
  rows.flatMap fun row => (processRow fs cfg row).1

lemma pyInt_of_nonneg (q : ℚ) (h : 0 ≤ q) : pyInt q = ⌊q⌋ := by
  unfold pyInt
  rw [if_neg (not_lt.mpr h)]

/-- Characterization of `to_deg` in terms of floor and fractional part:
`int` truncation coincides with `⌊·⌋` on the nonnegative intermediate values. -/
lemma to_deg_spec (v : ℚ) (loc : String × String) :
    to_deg v loc =
      (⌊|v|⌋, ⌊Int.fract |v| * 60⌋,
        pyRound5 (Int.fract (Int.fract |v| * 60) * 60),
        if v < 0 then loc.1 else if v > 0 then loc.2 else "") := by
  have habs : pyInt |v| = ⌊|v|⌋ := pyInt_of_nonneg _ (abs_nonneg v)
  have hf : (0 : ℚ) ≤ Int.fract |v| * 60 :=
    mul_nonneg (Int.fract_nonneg _) (by norm_num)
  simp only [to_deg, habs, Int.self_sub_floor, pyInt_of_nonneg _ hf]

lemma roundHalfEven_le (q : ℚ) : (roundHalfEven q : ℚ) ≤ q + 1/2 := by
  have h1 : ((⌊q⌋ : ℤ) : ℚ) ≤ q := Int.floor_le q
  simp only [roundHalfEven]
  split_ifs with h2 h3 h4 <;> push_cast <;> linarith

lemma le_roundHalfEven (q : ℚ) : q - 1/2 ≤ (roundHalfEven q : ℚ) := by
  have h1 : q < (⌊q⌋ : ℚ) + 1 := Int.lt_floor_add_one q
  simp only [roundHalfEven]
  split_ifs with h2 h3 h4 <;> push_cast <;> linarith

lemma roundHalfEven_nonneg (q : ℚ) (h : 0 ≤ q) : 0 ≤ roundHalfEven q := by
  have h1 : 0 ≤ ⌊q⌋ := Int.floor_nonneg.mpr h
  simp only [roundHalfEven]
  split_ifs <;> omega

lemma abs_pyRound5_sub (q : ℚ) : |pyRound5 q - q| ≤ 1/200000 := by
  have h1 := roundHalfEven_le (q * 100000)
  have h2 := le_roundHalfEven (q * 100000)
  rw [pyRound5, abs_le]
  constructor <;> linarith

lemma pyRound5_nonneg (q : ℚ) (h : 0 ≤ q) : 0 ≤ pyRound5 q := by
  have h1 : 0 ≤ roundHalfEven (q * 100000) :=
    roundHalfEven_nonneg _ (mul_nonneg h (by norm_num))
  have h2 : (0 : ℚ) ≤ (roundHalfEven (q * 100000) : ℚ) := by exact_mod_cast h1
  rw [pyRound5]
  positivity

lemma pyRound5_le_sixty (q : ℚ) (h : q < 60) : pyRound5 q ≤ 60 := by
  have h1 := roundHalfEven_le (q * 100000)
  have h2 : (roundHalfEven (q * 100000) : ℚ) < 6000001 := by linarith
  have h3 : roundHalfEven (q * 100000) < 6000001 := by exact_mod_cast h2
  have h4 : (roundHalfEven (q * 100000) : ℚ) ≤ 6000000 := by
    have : roundHalfEven (q * 100000) ≤ 6000000 := by omega
    exact_mod_cast this
  rw [pyRound5]
  linarith

lemma pyRound5_zero : pyRound5 0 = 0 := by
  norm_num [pyRound5, roundHalfEven]

/-- C1: for every value and direction pair, `to_deg` returns the integer part
of the absolute value as degrees, the integer part of the fractional part times
60 as minutes, the remainder times 60 rounded to 5 decimal places as seconds,
and the negative / positive reference for a negative / positive value, with the
empty string for a zero value. -/
theorem toDegreeMinuteSecond_contract (v : ℚ) (negativeRef positiveRef : String) :
    to_deg v (negativeRef, positiveRef) =
      (⌊|v|⌋, ⌊Int.fract |v| * 60⌋,
        pyRound5 (Int.fract (Int.fract |v| * 60) * 60),
        if v < 0 then negativeRef else if v > 0 then positiveRef else "") :=
  to_deg_spec v (negativeRef, positiveRef)

/-- C2: for every decimal value of magnitude at most 180, decoding the tuple
produced by `to_deg` back into decimal degrees recovers the value to within
an absolute tolerance of 1e-5 (the direction pair must be a genuine pair, i.e.
two distinct reference characters). -/
theorem toDegreeMinuteSecond_roundtrip (v : ℚ) (negativeRef positiveRef : String)
    (hv : |v| ≤ 180) (hrefs : negativeRef ≠ positiveRef) :
    |decodeDMS (to_deg v (negativeRef, positiveRef)) negativeRef - v| ≤ 1/100000 := by
  rw [to_deg_spec]
  have e1 : ((⌊|v|⌋ : ℤ) : ℚ) = |v| - Int.fract |v| := by
    have := Int.self_sub_floor |v|
    linarith
  have e2 : ((⌊Int.fract |v| * 60⌋ : ℤ) : ℚ)
      = Int.fract |v| * 60 - Int.fract (Int.fract |v| * 60) := by
    have := Int.self_sub_floor (Int.fract |v| * 60)
    linarith
  have key : ((⌊|v|⌋ : ℤ) : ℚ) + ((⌊Int.fract |v| * 60⌋ : ℤ) : ℚ) / 60 +
      (Int.fract (Int.fract |v| * 60) * 60) / 3600 = |v| := by
    rw [e1, e2]
    ring
  have herr := abs_pyRound5_sub (Int.fract (Int.fract |v| * 60) * 60)
  rw [abs_le] at herr
  rcases lt_trichotomy v 0 with hneg | hzero | hpos
  · have habs : |v| = -v := abs_of_neg hneg
    have hd : decodeDMS
        (⌊|v|⌋, ⌊Int.fract |v| * 60⌋,
          pyRound5 (Int.fract (Int.fract |v| * 60) * 60),
          if v < 0 then negativeRef else if v > 0 then positiveRef else "")
        negativeRef
        = -(((⌊|v|⌋ : ℤ) : ℚ) + ((⌊Int.fract |v| * 60⌋ : ℤ) : ℚ) / 60 +
            pyRound5 (Int.fract (Int.fract |v| * 60) * 60) / 3600) := by
      simp only [decodeDMS]
      rw [if_pos hneg, if_pos rfl]
    rw [hd, abs_le]
    constructor <;> linarith [herr.1, herr.2]
  · subst hzero
    have hf0 : Int.fract (0 : ℚ) = 0 := by norm_num [Int.fract]
    simp only [decodeDMS, abs_zero, hf0, zero_mul, Int.floor_zero, Int.cast_zero,
      pyRound5_zero, zero_div, add_zero, sub_zero]
    split_ifs <;> simp
  · have habs : |v| = v := abs_of_pos hpos
    have hnotneg : ¬ v < 0 := by linarith
    have hd : decodeDMS
        (⌊|v|⌋, ⌊Int.fract |v| * 60⌋,
          pyRound5 (Int.fract (Int.fract |v| * 60) * 60),
          if v < 0 then negativeRef else if v > 0 then positiveRef else "")
        negativeRef
        = ((⌊|v|⌋ : ℤ) : ℚ) + ((⌊Int.fract |v| * 60⌋ : ℤ) : ℚ) / 60 +
            pyRound5 (Int.fract (Int.fract |v| * 60) * 60) / 3600 := by
      simp only [decodeDMS]
      rw [if_neg hnotneg, if_pos hpos,
        if_neg (show ¬ positiveRef = negativeRef from fun h => hrefs h.symm)]
    rw [hd, abs_le]
    constructor <;> linarith [herr.1, herr.2]

/-- Witness for C2 at the concrete input 3 with direction pair S / N. -/
theorem toDegreeMinuteSecond_roundtrip_witness :
    |(3 : ℚ)| ≤ 180 ∧ "S" ≠ "N" ∧
      |decodeDMS (to_deg 3 ("S", "N")) "S" - 3| ≤ 1/100000 :=
  ⟨by norm_num, by simp,
    toDegreeMinuteSecond_roundtrip 3 "S" "N" (by norm_num) (by simp)⟩

/-- C3: for every decimal number with at most 5 fractional digits (its value
scaled by 10^5 is an integer), dividing the numerator by the denominator
returned by `change_to_rational` reproduces the number exactly. -/
theorem toExactFraction_exact (q : ℚ) (h : (q * 100000).den = 1) :
    ((change_to_rational q).1 : ℚ) / ((change_to_rational q).2 : ℚ) = q := by
  simp [change_to_rational, Rat.num_div_den]

/-- Witness for C3 at the concrete input 0.5. -/
theorem toExactFraction_exact_witness :
    ((1/2 : ℚ) * 100000).den = 1 ∧
      ((change_to_rational (1/2)).1 : ℚ) / ((change_to_rational (1/2)).2 : ℚ) = 1/2 := by
  have h : ((1/2 : ℚ) * 100000).den = 1 := by
    have e : (1/2 : ℚ) * 100000 = 50000 := by norm_num
    rw [e]
    rfl
  exact ⟨h, toExactFraction_exact (1/2) h⟩

lemma fract_small (q : ℚ) (h0 : 0 ≤ q) (h1 : q < 1) : Int.fract q = q :=
  Int.fract_eq_self.mpr ⟨h0, h1⟩

/-- The seconds component of `to_deg` reaches exactly 60 at the boundary value
59999999 / 3600000000, i.e. at 0 degrees, 0 minutes, 59.999999 seconds. -/
lemma to_deg_sec_sixty (loc : String × String) :
    (to_deg (59999999/3600000000) loc).2.2.1 = 60 := by
  rw [to_deg_spec]
  show pyRound5 (Int.fract (Int.fract |(59999999/3600000000 : ℚ)| * 60) * 60) = 60
  have habs : |(59999999/3600000000 : ℚ)| = 59999999/3600000000 :=
    abs_of_nonneg (by norm_num)
  have h1 : Int.fract (59999999/3600000000 : ℚ) = 59999999/3600000000 :=
    fract_small _ (by norm_num) (by norm_num)
  have h2 : (59999999/3600000000 : ℚ) * 60 = 59999999/60000000 := by norm_num
  have h3 : Int.fract (59999999/60000000 : ℚ) = 59999999/60000000 :=
    fract_small _ (by norm_num) (by norm_num)
  have h4 : (59999999/60000000 : ℚ) * 60 = 59999999/1000000 := by norm_num
  rw [habs, h1, h2, h3, h4]
  have h5 : (59999999/1000000 : ℚ) * 100000 = 59999999/10 := by norm_num
  have h6 : roundHalfEven (59999999/10 : ℚ) = 6000000 := by
    norm_num [roundHalfEven]
  rw [pyRound5, h5, h6]
  norm_num

/-- C9: for every value of magnitude at most 180, the tuple returned by
`to_deg` has a nonnegative degree component, a minute component between 0 and
59, and a second component between 0 and 60; the bound 60 is attained (the
rounding of the seconds to 5 decimal places can round a value just below 60 up
to exactly 60), so sec strictly below 60 is not guaranteed. -/
theorem to_deg_invariants (v : ℚ) (loc : String × String) (hv : |v| ≤ 180) :
    (0 ≤ (to_deg v loc).1 ∧
      0 ≤ (to_deg v loc).2.1 ∧ (to_deg v loc).2.1 ≤ 59 ∧
      0 ≤ (to_deg v loc).2.2.1 ∧ (to_deg v loc).2.2.1 ≤ 60) ∧
    ∃ w : ℚ, |w| ≤ 180 ∧ (to_deg w loc).2.2.1 = 60 := by
  constructor
  · rw [to_deg_spec]
    have hf0 : (0 : ℚ) ≤ Int.fract |v| := Int.fract_nonneg _
    have hf1 : Int.fract |v| < 1 := Int.fract_lt_one _
    have hm0 : (0 : ℚ) ≤ Int.fract |v| * 60 := by linarith
    have hm1 : Int.fract |v| * 60 < 60 := by linarith
    have hs0 : (0 : ℚ) ≤ Int.fract (Int.fract |v| * 60) := Int.fract_nonneg _
    have hs1 : Int.fract (Int.fract |v| * 60) < 1 := Int.fract_lt_one _
    refine ⟨Int.floor_nonneg.mpr (abs_nonneg v), Int.floor_nonneg.mpr hm0, ?_, ?_, ?_⟩
    · show ⌊Int.fract |v| * 60⌋ ≤ 59
      have h60 : ⌊Int.fract |v| * 60⌋ < 60 := Int.floor_lt.mpr (by exact_mod_cast hm1)
      omega
    · exact pyRound5_nonneg _ (by linarith)
    · exact pyRound5_le_sixty _ (by linarith)
  · exact ⟨59999999/3600000000, by rw [abs_of_nonneg] <;> norm_num,
      to_deg_sec_sixty loc⟩

/-- Witness for C9 at the concrete input 3 with direction pair S / N. -/
theorem to_deg_invariants_witness :
    |(3 : ℚ)| ≤ 180 ∧
      ((0 ≤ (to_deg 3 ("S", "N")).1 ∧
        0 ≤ (to_deg 3 ("S", "N")).2.1 ∧ (to_deg 3 ("S", "N")).2.1 ≤ 59 ∧
        0 ≤ (to_deg 3 ("S", "N")).2.2.1 ∧ (to_deg 3 ("S", "N")).2.2.1 ≤ 60) ∧
      ∃ w : ℚ, |w| ≤ 180 ∧ (to_deg w ("S", "N")).2.2.1 = 60) :=
  ⟨by norm_num, to_deg_invariants 3 ("S", "N") (by norm_num)⟩

/-- Counterexample for C4 as stated: at altitude -12.6 the stored altitude
rational is (-13, 1), i.e. round(-12.6) with its sign kept in the numerator,
not the magnitude 13 = |round(-12.6)|. -/
theorem set_gps_location_altitude_magnitude_false :
    ¬ ((set_gps_location 0 0 (-63/5)).gpsAltitudeRef = 1 ∧
       (set_gps_location 0 0 (-63/5)).gpsAltitude
         = (|roundHalfEven (-63/5 : ℚ)|, 1)) := by
  rintro ⟨-, h⟩
  have h13 : roundHalfEven (-63/5 : ℚ) = -13 := by
    norm_num [roundHalfEven]
  rw [show (set_gps_location 0 0 (-63/5)).gpsAltitude
      = change_to_rational ((roundHalfEven (-63/5 : ℚ) : ℤ) : ℚ) from rfl, h13] at h
  simp only [change_to_rational, Rat.num_intCast, Rat.den_intCast, Prod.mk.injEq] at h
  norm_num at h

/-- C4 amended: `set_gps_location` stores the altitude reference fixed to the
"below sea level" encoding 1 regardless of the altitude's sign, and stores the
altitude rational as round(altitude) itself — the sign is kept in the
numerator, not reduced to a magnitude — with denominator 1. -/
theorem set_gps_location_altitude (lat lng altitude : ℚ) :
    (set_gps_location lat lng altitude).gpsAltitudeRef = 1 ∧
    (set_gps_location lat lng altitude).gpsAltitude = (roundHalfEven altitude, 1) := by
  refine ⟨rfl, ?_⟩
  show change_to_rational ((roundHalfEven altitude : ℤ) : ℚ) = _
  simp [change_to_rational]

/-- If every row of the suffix processes without an uncaught error, the loop
runs to completion and extends the accumulators by the per-row views. -/
lemma runRows_ok (fs : String → Bool) (cfg : BatchConfig) (rows : List (List String))
    (hok : ∀ row ∈ rows, ∃ v, (processRow fs cfg row).2 = Except.ok v) :
    ∀ st : LoopState,
      runRows fs cfg rows st =
        (⟨st.tagged ++ taggedOf fs cfg rows,
          st.failedFiles ++ failedOf fs cfg rows,
          st.log ++ logOf fs cfg rows⟩, none) := by
  induction rows with
  | nil =>
    intro st
    simp [runRows, taggedOf, failedOf, logOf]
  | cons row rest ih =>
    intro st
    obtain ⟨v, hv⟩ := hok row (List.mem_cons_self row rest)
    have hrest : ∀ r ∈ rest, ∃ v, (processRow fs cfg r).2 = Except.ok v :=
      fun r hr => hok r (List.mem_cons_of_mem _ hr)
    rcases hp : processRow fs cfg row with ⟨msgs, out⟩
    rw [hp] at hv
    dsimp only at hv
    subst hv
    cases v with
    | inl t =>
      simp only [runRows, hp]
      rw [ih hrest]
      simp [taggedOf, failedOf, logOf, List.filterMap_cons, hp]
    | inr name =>
      simp only [runRows, hp]
      rw [ih hrest]
      simp [taggedOf, failedOf, logOf, List.filterMap_cons, hp]

/-- If every row before a malformed row processes without error and the
malformed row raises `e`, the loop stops at the malformed row with the effects
of the earlier rows (and the malformed row's path diagnostic, if any) kept,
regardless of the rows after it. -/
lemma runRows_err (fs : String → Bool) (cfg : BatchConfig) (pre : List (List String))
    (bad : List String) (post : List (List String)) (e : RowError)
    (hpre : ∀ row ∈ pre, ∃ v, (processRow fs cfg row).2 = Except.ok v)
    (hbad : (processRow fs cfg bad).2 = Except.error e) :
    ∀ st : LoopState,
      runRows fs cfg (pre ++ bad :: post) st =
        (⟨st.tagged ++ taggedOf fs cfg pre,
          st.failedFiles ++ failedOf fs cfg pre,
          st.log ++ logOf fs cfg pre ++ (processRow fs cfg bad).1⟩, some e) := by
  induction pre with
  | nil =>
    intro st
    rcases hp : processRow fs cfg bad with ⟨msgs, out⟩
    rw [hp] at hbad
    dsimp only at hbad
    subst hbad
    simp [runRows, hp, taggedOf, failedOf, logOf]
  | cons row rest ih =>
    intro st
    obtain ⟨v, hv⟩ := hpre row (List.mem_cons_self row rest)
    have hrest : ∀ r ∈ rest, ∃ v, (processRow fs cfg r).2 = Except.ok v :=
      fun r hr => hpre r (List.mem_cons_of_mem _ hr)
    rcases hp : processRow fs cfg row with ⟨msgs, out⟩
    rw [hp] at hv
    dsimp only at hv
    subst hv
    cases v with
    | inl t =>
      simp only [List.cons_append, runRows, hp, List.append_eq]
      rw [ih hrest]
      simp [taggedOf, failedOf, logOf, List.filterMap_cons, hp, List.append_assoc]
    | inr name =>
      simp only [List.cons_append, runRows, hp, List.append_eq]
      rw [ih hrest]
      simp [taggedOf, failedOf, logOf, List.filterMap_cons, hp, List.append_assoc]

/-- The failure-list entries of the loop are exactly the names of the
missing-file rows: a row contributes to the failure list precisely when its
name cell is present and its constructed path does not exist. -/
lemma failedOf_eq_missingFileNames (fs : String → Bool) (cfg : BatchConfig)
    (rows : List (List String)) :
    failedOf fs cfg rows = missingFileNames fs cfg rows := by
  unfold failedOf missingFileNames
  congr 1
  funext row
  rcases hcell : row[cfg.img_Name_Column]? with _ | name <;>
    simp only [processRow, rowCell, hcell]
  by_cases hfs : fs (pathJoin cfg.sourceImageFolder name) <;>
    simp only [hfs, if_true, if_false]
  · rcases h1 : floatCell row cfg.Lat_Y_Column with e1 | lat
    · simp [h1]
    · rcases h2 : floatCell row cfg.Long_X_Column with e2 | lng
      · simp [h1, h2]
      · rcases h3 : floatCell row cfg.Alt_Z_Column with e3 | alt
        · simp [h1, h2, h3]
        · simp [h1, h2, h3]
  · simp

/-- A missing-file row leaves its skip diagnostic in the per-row log. -/
lemma skip_msg_mem_logOf (fs : String → Bool) (cfg : BatchConfig)
    (rows : List (List String)) (name : String)
    (h : name ∈ missingFileNames fs cfg rows) :
    ("Skipped " ++ name ++ " as file does not exist in Source Image Folder Location")
      ∈ logOf fs cfg rows := by
  unfold missingFileNames at h
  rw [List.mem_filterMap] at h
  obtain ⟨row, hrow, hmatch⟩ := h
  rcases hcell : row[cfg.img_Name_Column]? with _ | n
  · rw [hcell] at hmatch
    simp at hmatch
  · rw [hcell] at hmatch
    dsimp only at hmatch
    by_cases hfs : fs (pathJoin cfg.sourceImageFolder n)
    · rw [if_pos hfs] at hmatch
      simp at hmatch
    · rw [if_neg hfs] at hmatch
      obtain rfl : n = name := by simpa using hmatch
      unfold logOf
      rw [List.mem_flatMap]
      refine ⟨row, hrow, ?_⟩
      simp [processRow, rowCell, hcell, hfs]

/-- C5: on a table whose data rows all process without an uncaught error,
every missing-file row has its identifier recorded and its diagnostic emitted,
the batch is not terminated early, and the final failure list is exactly the
list of missing-file identifiers in table order. -/
theorem runBatch_missing_files (fs : String → Bool) (cfg : BatchConfig)
    (table : List (List String)) (errorLog0 : Option String)
    (hok : ∀ row ∈ table.drop 1, ∃ v, (processRow fs cfg row).2 = Except.ok v) :
    (runBatch fs cfg table errorLog0).error = none ∧
    (runBatch fs cfg table errorLog0).failedFiles
      = missingFileNames fs cfg (table.drop 1) ∧
    ∀ name ∈ missingFileNames fs cfg (table.drop 1),
      ("Skipped " ++ name ++ " as file does not exist in Source Image Folder Location")
        ∈ (runBatch fs cfg table errorLog0).log := by
  have hrun := runRows_ok fs cfg (table.drop 1) hok ⟨[], [], []⟩
  simp only [runBatch, hrun, List.nil_append]
  split_ifs with hlen
  · refine ⟨rfl, failedOf_eq_missingFileNames fs cfg _, fun name hname => ?_⟩
    exact List.mem_append_left _ (skip_msg_mem_logOf fs cfg _ name hname)
  · exact ⟨rfl, failedOf_eq_missingFileNames fs cfg _,
      fun name hname => skip_msg_mem_logOf fs cfg _ name hname⟩

/-- C6: after a completed pass, a non-empty failure list makes the error log
path hold exactly one failed identifier per line with no header — independent
of whatever was at the path before, since the source deletes then recreates
the file — while an empty failure list leaves the path untouched, preserving
any stale report. -/
theorem runBatch_error_report (fs : String → Bool) (cfg : BatchConfig)
    (table : List (List String)) (errorLog0 : Option String)
    (hdone : (runBatch fs cfg table errorLog0).error = none) :
    ((runBatch fs cfg table errorLog0).failedFiles ≠ [] →
      (runBatch fs cfg table errorLog0).errorLog
        = some (String.join
            ((runBatch fs cfg table errorLog0).failedFiles.map fun a => a ++ "\n"))) ∧
    ((runBatch fs cfg table errorLog0).failedFiles = [] →
      (runBatch fs cfg table errorLog0).errorLog = errorLog0) := by
  rcases hr : runRows fs cfg (table.drop 1) ⟨[], [], []⟩ with ⟨st, err⟩
  cases err with
  | some e =>
    simp only [runBatch, hr] at hdone
    exact absurd hdone (by simp)
  | none =>
    simp only [runBatch, hr]
    split_ifs with hlen
    · constructor
      · intro _
        simp [write_list_to_file]
      · intro hnil
        simp only at hnil
        rw [hnil] at hlen
        simp at hlen
    · have hnil : st.failedFiles = [] := List.length_eq_zero.mp (by omega)
      constructor
      · intro hne
        simp only at hne
        exact absurd hnil hne
      · intro _
        rfl

/-- C7: a malformed data row (its processing raises IndexError or ValueError)
is not handled: the error propagates out of the batch, the stale error log is
left untouched, and the run's outcome is identical whether or not any rows
follow the malformed one — those rows are never processed. -/
theorem runBatch_malformed_aborts (fs : String → Bool) (cfg : BatchConfig)
    (header bad : List String) (pre post : List (List String))
    (errorLog0 : Option String) (e : RowError)
    (hpre : ∀ row ∈ pre, ∃ v, (processRow fs cfg row).2 = Except.ok v)
    (hbad : (processRow fs cfg bad).2 = Except.error e) :
    (runBatch fs cfg (header :: (pre ++ bad :: post)) errorLog0).error = some e ∧
    runBatch fs cfg (header :: (pre ++ bad :: post)) errorLog0
      = runBatch fs cfg (header :: (pre ++ [bad])) errorLog0 ∧
    (runBatch fs cfg (header :: (pre ++ bad :: post)) errorLog0).errorLog = errorLog0 := by
  have h1 := runRows_err fs cfg pre bad post e hpre hbad ⟨[], [], []⟩
  have h2 := runRows_err fs cfg pre bad [] e hpre hbad ⟨[], [], []⟩
  refine ⟨?_, ?_, ?_⟩ <;>
    simp only [runBatch, List.drop_succ_cons, List.drop_zero, h1, h2]

/-- C8: the batch skips exactly one header row — the run's outcome does not
depend on the header's content — and processes the data rows one at a time in
table order: on a table whose data rows all process without error, the tagging
sequence is the per-row view of the data rows in order, and likewise the
failure list. -/
theorem runBatch_order (fs : String → Bool) (cfg : BatchConfig)
    (header : List String) (rows : List (List String)) (errorLog0 : Option String)
    (hok : ∀ row ∈ rows, ∃ v, (processRow fs cfg row).2 = Except.ok v) :
    (∀ header2 : List String,
      runBatch fs cfg (header :: rows) errorLog0
        = runBatch fs cfg (header2 :: rows) errorLog0) ∧
    (runBatch fs cfg (header :: rows) errorLog0).tagged = taggedOf fs cfg rows ∧
    (runBatch fs cfg (header :: rows) errorLog0).failedFiles
      = missingFileNames fs cfg rows := by
  have hrun := runRows_ok fs cfg rows hok ⟨[], [], []⟩
  refine ⟨fun header2 => ?_, ?_, ?_⟩
  · simp only [runBatch, List.drop_succ_cons, List.drop_zero]
  · simp only [runBatch, List.drop_succ_cons, List.drop_zero, hrun, List.nil_append]
    split_ifs <;> rfl
  · simp only [runBatch, List.drop_succ_cons, List.drop_zero, hrun, List.nil_append]
    split_ifs <;> exact failedOf_eq_missingFileNames fs cfg rows

/-- C10: on an empty table, or a table holding only the header row, the batch
completes without raising, tags nothing, ends with an empty failure list, and
leaves the error log path exactly as it was. -/
theorem runBatch_empty_table (fs : String → Bool) (cfg : BatchConfig)
    (table : List (List String)) (errorLog0 : Option String)
    (h : table.length ≤ 1) :
    runBatch fs cfg table errorLog0 = ⟨[], [], [], errorLog0, none⟩ := by
  have hd : table.drop 1 = [] := List.drop_eq_nil_of_le h
  simp [runBatch, hd, runRows]

/-- Witness for C5: a two-data-row table over an empty file system; both rows
are missing-file rows. -/
theorem runBatch_missing_files_witness :
    (∀ row ∈ ([["name", "lat", "lon", "alt"], ["a.jpg", "1", "2", "3"],
        ["b.jpg", "4", "5", "6"]].drop 1),
      ∃ v, (processRow (fun _ => false)
        (⟨"folder", "errlog.csv", 0, 1, 2, 3⟩ : BatchConfig) row).2 = Except.ok v) ∧
    ((runBatch (fun _ => false) ⟨"folder", "errlog.csv", 0, 1, 2, 3⟩
        [["name", "lat", "lon", "alt"], ["a.jpg", "1", "2", "3"],
          ["b.jpg", "4", "5", "6"]] none).error = none ∧
      (runBatch (fun _ => false) ⟨"folder", "errlog.csv", 0, 1, 2, 3⟩
        [["name", "lat", "lon", "alt"], ["a.jpg", "1", "2", "3"],
          ["b.jpg", "4", "5", "6"]] none).failedFiles
        = missingFileNames (fun _ => false) ⟨"folder", "errlog.csv", 0, 1, 2, 3⟩
            ([["name", "lat", "lon", "alt"], ["a.jpg", "1", "2", "3"],
              ["b.jpg", "4", "5", "6"]].drop 1) ∧
      ∀ name ∈ missingFileNames (fun _ => false) ⟨"folder", "errlog.csv", 0, 1, 2, 3⟩
          ([["name", "lat", "lon", "alt"], ["a.jpg", "1", "2", "3"],
            ["b.jpg", "4", "5", "6"]].drop 1),
        ("Skipped " ++ name ++ " as file does not exist in Source Image Folder Location")
          ∈ (runBatch (fun _ => false) ⟨"folder", "errlog.csv", 0, 1, 2, 3⟩
              [["name", "lat", "lon", "alt"], ["a.jpg", "1", "2", "3"],
                ["b.jpg", "4", "5", "6"]] none).log) := by
  have hok : ∀ row ∈ ([["name", "lat", "lon", "alt"], ["a.jpg", "1", "2", "3"],
      ["b.jpg", "4", "5", "6"]].drop 1),
      ∃ v, (processRow (fun _ => false)
        (⟨"folder", "errlog.csv", 0, 1, 2, 3⟩ : BatchConfig) row).2 = Except.ok v := by
    intro row hrow
    simp only [List.drop_succ_cons, List.drop_zero, List.mem_cons,
      List.not_mem_nil, or_false] at hrow
    rcases hrow with rfl | rfl
    · exact ⟨Sum.inr "a.jpg", by simp [processRow, rowCell, pathJoin]⟩
    · exact ⟨Sum.inr "b.jpg", by simp [processRow, rowCell, pathJoin]⟩
  exact ⟨hok, runBatch_missing_files _ _ _ _ hok⟩

/-- Witness for C6: a one-data-row table whose file is missing; the run
completes and the report content is that row's identifier plus a newline. -/
theorem runBatch_error_report_witness :
    (runBatch (fun _ => false) ⟨"folder", "errlog.csv", 0, 1, 2, 3⟩
        [["h"], ["a.jpg"]] none).error = none ∧
    (((runBatch (fun _ => false) ⟨"folder", "errlog.csv", 0, 1, 2, 3⟩
          [["h"], ["a.jpg"]] none).failedFiles ≠ [] →
        (runBatch (fun _ => false) ⟨"folder", "errlog.csv", 0, 1, 2, 3⟩
          [["h"], ["a.jpg"]] none).errorLog
          = some (String.join
              ((runBatch (fun _ => false) ⟨"folder", "errlog.csv", 0, 1, 2, 3⟩
                  [["h"], ["a.jpg"]] none).failedFiles.map fun a => a ++ "\n"))) ∧
      ((runBatch (fun _ => false) ⟨"folder", "errlog.csv", 0, 1, 2, 3⟩
          [["h"], ["a.jpg"]] none).failedFiles = [] →
        (runBatch (fun _ => false) ⟨"folder", "errlog.csv", 0, 1, 2, 3⟩
          [["h"], ["a.jpg"]] none).errorLog = none)) := by
  have hdone : (runBatch (fun _ => false) ⟨"folder", "errlog.csv", 0, 1, 2, 3⟩
      [["h"], ["a.jpg"]] none).error = none := by
    simp [runBatch, runRows, processRow, rowCell, pathJoin]
  exact ⟨hdone, runBatch_error_report _ _ _ _ hdone⟩

/-- Witness for C7: the second data row is empty, so indexing its name cell
raises IndexError; a well-formed row follows it and is never processed. -/
theorem runBatch_malformed_aborts_witness :
    (∀ row ∈ ([] : List (List String)),
      ∃ v, (processRow (fun _ => true)
        (⟨"folder", "errlog.csv", 0, 1, 2, 3⟩ : BatchConfig) row).2 = Except.ok v) ∧
    (processRow (fun _ => true) (⟨"folder", "errlog.csv", 0, 1, 2, 3⟩ : BatchConfig)
        ([] : List String)).2 = Except.error RowError.indexError ∧
    ((runBatch (fun _ => true) ⟨"folder", "errlog.csv", 0, 1, 2, 3⟩
        (["h"] :: (([] : List (List String)) ++ ([] : List String)
          :: [["c.jpg", "1", "2", "3"]])) none).error = some RowError.indexError ∧
      runBatch (fun _ => true) ⟨"folder", "errlog.csv", 0, 1, 2, 3⟩
        (["h"] :: (([] : List (List String)) ++ ([] : List String)
          :: [["c.jpg", "1", "2", "3"]])) none
        = runBatch (fun _ => true) ⟨"folder", "errlog.csv", 0, 1, 2, 3⟩
            (["h"] :: (([] : List (List String)) ++ [([] : List String)])) none ∧
      (runBatch (fun _ => true) ⟨"folder", "errlog.csv", 0, 1, 2, 3⟩
        (["h"] :: (([] : List (List String)) ++ ([] : List String)
          :: [["c.jpg", "1", "2", "3"]])) none).errorLog = none) := by
  have hpre : ∀ row ∈ ([] : List (List String)),
      ∃ v, (processRow (fun _ => true)
        (⟨"folder", "errlog.csv", 0, 1, 2, 3⟩ : BatchConfig) row).2 = Except.ok v := by
    simp
  have hbad : (processRow (fun _ => true)
      (⟨"folder", "errlog.csv", 0, 1, 2, 3⟩ : BatchConfig)
      ([] : List String)).2 = Except.error RowError.indexError := by
    simp [processRow, rowCell]
  exact ⟨hpre, hbad,
    runBatch_malformed_aborts (fun _ => true) ⟨"folder", "errlog.csv", 0, 1, 2, 3⟩
      ["h"] [] [] [["c.jpg", "1", "2", "3"]] none RowError.indexError hpre hbad⟩

/-- Witness for C8: a single data row over an empty file system. -/
theorem runBatch_order_witness :
    (∀ row ∈ [["a.jpg", "1", "2", "3"]],
      ∃ v, (processRow (fun _ => false)
        (⟨"folder", "errlog.csv", 0, 1, 2, 3⟩ : BatchConfig) row).2 = Except.ok v) ∧
    ((∀ header2 : List String,
        runBatch (fun _ => false) ⟨"folder", "errlog.csv", 0, 1, 2, 3⟩
          (["h"] :: [["a.jpg", "1", "2", "3"]]) none
          = runBatch (fun _ => false) ⟨"folder", "errlog.csv", 0, 1, 2, 3⟩
              (header2 :: [["a.jpg", "1", "2", "3"]]) none) ∧
      (runBatch (fun _ => false) ⟨"folder", "errlog.csv", 0, 1, 2, 3⟩
          (["h"] :: [["a.jpg", "1", "2", "3"]]) none).tagged
        = taggedOf (fun _ => false) ⟨"folder", "errlog.csv", 0, 1, 2, 3⟩
            [["a.jpg", "1", "2", "3"]] ∧
      (runBatch (fun _ => false) ⟨"folder", "errlog.csv", 0, 1, 2, 3⟩
          (["h"] :: [["a.jpg", "1", "2", "3"]]) none).failedFiles
        = missingFileNames (fun _ => false) ⟨"folder", "errlog.csv", 0, 1, 2, 3⟩
            [["a.jpg", "1", "2", "3"]]) := by
  have hok : ∀ row ∈ [["a.jpg", "1", "2", "3"]],
      ∃ v, (processRow (fun _ => false)
        (⟨"folder", "errlog.csv", 0, 1, 2, 3⟩ : BatchConfig) row).2 = Except.ok v := by
    intro row hrow
    simp only [List.mem_cons, List.not_mem_nil, or_false] at hrow
    subst hrow
    exact ⟨Sum.inr "a.jpg", by simp [processRow, rowCell, pathJoin]⟩
  exact ⟨hok, runBatch_order _ _ _ _ _ hok⟩

/-- Witness for C10 at the empty table. -/
theorem runBatch_empty_table_witness :
    ([] : List (List String)).length ≤ 1 ∧
      runBatch (fun _ => true) ⟨"folder", "errlog.csv", 0, 1, 2, 3⟩ [] none
        = ⟨[], [], [], none, none⟩ :=
  ⟨by simp, runBatch_empty_table _ _ _ _ (by simp)⟩
